import Mathlib

/-!
Verification of the Zephyr FIDO2 authenticator core.

The repository under verification ships the full declaration surface of the
subsystem (shared types, status codes, command codes, credential and device
info structures, and the storage / user-verification / transport collaborator
APIs) in its headers.  The behavioral core (command dispatcher, MakeCredential
and GetAssertion ceremonies, ClientPIN state machine, reset handling) is
specified in the accompanying design document; its bodies are not part of the
source tree.  Accordingly the data model below is embedded directly from
`fido2_types.h`, `fido2.h` and `fido2_storage.h`, and the operations are
modelled from the specification, definition by definition, as noted in their
doc comments.
-/

namespace Fido2

/-- Maximum credential ID size in bytes (`FIDO2_CREDENTIAL_ID_MAX_SIZE`). -/
def FIDO2_CREDENTIAL_ID_MAX_SIZE : Nat := 128

/-- Maximum relying party ID length (`FIDO2_RP_ID_MAX_LEN`). -/
def FIDO2_RP_ID_MAX_LEN : Nat := 128

/-- Maximum relying party name length (`FIDO2_RP_NAME_MAX_LEN`). -/
def FIDO2_RP_NAME_MAX_LEN : Nat := 64

/-- Maximum user name length (`FIDO2_USER_NAME_MAX_LEN`). -/
def FIDO2_USER_NAME_MAX_LEN : Nat := 64

/-- Maximum user display name length (`FIDO2_USER_DISPLAY_NAME_MAX_LEN`). -/
def FIDO2_USER_DISPLAY_NAME_MAX_LEN : Nat := 64

/-- Maximum user ID size in bytes (`FIDO2_USER_ID_MAX_SIZE`). -/
def FIDO2_USER_ID_MAX_SIZE : Nat := 64

/-- AAGUID size in bytes (`FIDO2_AAGUID_SIZE`). -/
def FIDO2_AAGUID_SIZE : Nat := 16

/-- SHA-256 hash size (`FIDO2_SHA256_SIZE`). -/
def FIDO2_SHA256_SIZE : Nat := 32

/-- PIN hash size (`FIDO2_PIN_HASH_SIZE`). -/
def FIDO2_PIN_HASH_SIZE : Nat := 32

/-- Modelled from the spec: the spec's PIN scenario blocks on the eighth
consecutive failed verify, so `MAX_RETRIES` is 8 (the constant itself is not
declared in the headers). -/
def FIDO2_PIN_MAX_RETRIES : Nat := 8

/-- CTAP2 status codes (`enum fido2_status`). -/
inductive fido2_status where
  | FIDO2_OK
  | FIDO2_ERR_INVALID_COMMAND
  | FIDO2_ERR_INVALID_PARAMETER
  | FIDO2_ERR_INVALID_LENGTH
  | FIDO2_ERR_INVALID_SEQ
  | FIDO2_ERR_TIMEOUT
  | FIDO2_ERR_CHANNEL_BUSY
  | FIDO2_ERR_LOCK_REQUIRED
  | FIDO2_ERR_INVALID_CHANNEL
  | FIDO2_ERR_CBOR_UNEXPECTED_TYPE
  | FIDO2_ERR_INVALID_CBOR
  | FIDO2_ERR_MISSING_PARAMETER
  | FIDO2_ERR_LIMIT_EXCEEDED
  | FIDO2_ERR_UNSUPPORTED_EXTENSION
  | FIDO2_ERR_CREDENTIAL_EXCLUDED
  | FIDO2_ERR_PROCESSING
  | FIDO2_ERR_INVALID_CREDENTIAL
  | FIDO2_ERR_USER_ACTION_PENDING
  | FIDO2_ERR_OPERATION_PENDING
  | FIDO2_ERR_NO_OPERATIONS
  | FIDO2_ERR_UNSUPPORTED_ALGORITHM
  | FIDO2_ERR_OPERATION_DENIED
  | FIDO2_ERR_KEY_STORE_FULL
  | FIDO2_ERR_NO_CREDENTIALS
  | FIDO2_ERR_USER_ACTION_TIMEOUT
  | FIDO2_ERR_NOT_ALLOWED
  | FIDO2_ERR_PIN_INVALID
  | FIDO2_ERR_PIN_BLOCKED
  | FIDO2_ERR_PIN_AUTH_INVALID
  | FIDO2_ERR_PIN_AUTH_BLOCKED
  | FIDO2_ERR_PIN_NOT_SET
  | FIDO2_ERR_PIN_REQUIRED
  | FIDO2_ERR_PIN_POLICY_VIOLATION
  | FIDO2_ERR_UV_BLOCKED
  | FIDO2_ERR_UV_INVALID
  | FIDO2_ERR_OTHER
deriving DecidableEq, Repr

open fido2_status

/-- Numeric wire value of each status code, as assigned in `enum fido2_status`. -/
def fido2_status.code : fido2_status → Nat
  | FIDO2_OK => 0x00
  | FIDO2_ERR_INVALID_COMMAND => 0x01
  | FIDO2_ERR_INVALID_PARAMETER => 0x02
  | FIDO2_ERR_INVALID_LENGTH => 0x03
  | FIDO2_ERR_INVALID_SEQ => 0x04
  | FIDO2_ERR_TIMEOUT => 0x05
  | FIDO2_ERR_CHANNEL_BUSY => 0x06
  | FIDO2_ERR_LOCK_REQUIRED => 0x0A
  | FIDO2_ERR_INVALID_CHANNEL => 0x0B
  | FIDO2_ERR_CBOR_UNEXPECTED_TYPE => 0x11
  | FIDO2_ERR_INVALID_CBOR => 0x12
  | FIDO2_ERR_MISSING_PARAMETER => 0x14
  | FIDO2_ERR_LIMIT_EXCEEDED => 0x15
  | FIDO2_ERR_UNSUPPORTED_EXTENSION => 0x16
  | FIDO2_ERR_CREDENTIAL_EXCLUDED => 0x19
  | FIDO2_ERR_PROCESSING => 0x21
  | FIDO2_ERR_INVALID_CREDENTIAL => 0x22
  | FIDO2_ERR_USER_ACTION_PENDING => 0x23
  | FIDO2_ERR_OPERATION_PENDING => 0x24
  | FIDO2_ERR_NO_OPERATIONS => 0x25
  | FIDO2_ERR_UNSUPPORTED_ALGORITHM => 0x26
  | FIDO2_ERR_OPERATION_DENIED => 0x27
  | FIDO2_ERR_KEY_STORE_FULL => 0x28
  | FIDO2_ERR_NO_CREDENTIALS => 0x2E
  | FIDO2_ERR_USER_ACTION_TIMEOUT => 0x2F
  | FIDO2_ERR_NOT_ALLOWED => 0x30
  | FIDO2_ERR_PIN_INVALID => 0x31
  | FIDO2_ERR_PIN_BLOCKED => 0x32
  | FIDO2_ERR_PIN_AUTH_INVALID => 0x33
  | FIDO2_ERR_PIN_AUTH_BLOCKED => 0x34
  | FIDO2_ERR_PIN_NOT_SET => 0x35
  | FIDO2_ERR_PIN_REQUIRED => 0x36
  | FIDO2_ERR_PIN_POLICY_VIOLATION => 0x37
  | FIDO2_ERR_UV_BLOCKED => 0x3C
  | FIDO2_ERR_UV_INVALID => 0x3D
  | FIDO2_ERR_OTHER => 0x7F

/-- CTAP2 command codes (`enum fido2_cmd`). -/
inductive fido2_cmd where
  | FIDO2_CMD_MAKE_CREDENTIAL
  | FIDO2_CMD_GET_ASSERTION
  | FIDO2_CMD_GET_INFO
  | FIDO2_CMD_CLIENT_PIN
  | FIDO2_CMD_RESET
  | FIDO2_CMD_GET_NEXT_ASSERTION
  | FIDO2_CMD_CREDENTIAL_MGMT
deriving DecidableEq, Repr

/-- Numeric wire value of each command code, as assigned in `enum fido2_cmd`. -/
def fido2_cmd.code : fido2_cmd → Nat
  | .FIDO2_CMD_MAKE_CREDENTIAL => 0x01
  | .FIDO2_CMD_GET_ASSERTION => 0x02
  | .FIDO2_CMD_GET_INFO => 0x04
  | .FIDO2_CMD_CLIENT_PIN => 0x06
  | .FIDO2_CMD_RESET => 0x07
  | .FIDO2_CMD_GET_NEXT_ASSERTION => 0x08
  | .FIDO2_CMD_CREDENTIAL_MGMT => 0x0A

/-- Decode a numeric command code back to a command; unrecognized codes give
`none`.  Inverse of `fido2_cmd.code` on the seven assigned values. -/
def fido2_cmd.ofCode (n : Nat) : Option fido2_cmd :=
  if n = 0x01 then some .FIDO2_CMD_MAKE_CREDENTIAL
  else if n = 0x02 then some .FIDO2_CMD_GET_ASSERTION
  else if n = 0x04 then some .FIDO2_CMD_GET_INFO
  else if n = 0x06 then some .FIDO2_CMD_CLIENT_PIN
  else if n = 0x07 then some .FIDO2_CMD_RESET
  else if n = 0x08 then some .FIDO2_CMD_GET_NEXT_ASSERTION
  else if n = 0x0A then some .FIDO2_CMD_CREDENTIAL_MGMT
  else none

/-- Credential protection levels (`enum fido2_cred_protect`). -/
inductive fido2_cred_protect where
  | FIDO2_CRED_PROTECT_UV_OPTIONAL
  | FIDO2_CRED_PROTECT_UV_OPTIONAL_WITH_LIST
  | FIDO2_CRED_PROTECT_UV_REQUIRED
deriving DecidableEq, Repr

/-- Numeric value of each protection level, as assigned in
`enum fido2_cred_protect`; also its strictness order (higher is stricter). -/
def fido2_cred_protect.level : fido2_cred_protect → Nat
  | .FIDO2_CRED_PROTECT_UV_OPTIONAL => 0x01
  | .FIDO2_CRED_PROTECT_UV_OPTIONAL_WITH_LIST => 0x02
  | .FIDO2_CRED_PROTECT_UV_REQUIRED => 0x03

/-- COSE algorithm identifiers (`enum fido2_cose_alg`): `FIDO2_COSE_ES256 = -7`. -/
def FIDO2_COSE_ES256 : Int := -7

/-- A stored FIDO2 credential (`struct fido2_credential`).  The C struct holds
`id` in a fixed `uint8_t[128]` array with an explicit `id_len`, and `user_id`
in a fixed `uint8_t[64]` array with `user_id_len`; both are embedded as byte
lists whose length plays the role of the length field.  `sign_count` is a
`uint32_t` counter. -/
structure fido2_credential where
  id : List Nat
  rp_id_hash : List Nat
  rp_id : String
  rp_name : String
  user_name : String
  user_display_name : String
  user_id : List Nat
  key_id : Nat
  sign_count : Nat
  algorithm : Int
  discoverable : Bool
  cred_protect : fido2_cred_protect
deriving DecidableEq, Repr

/-- Device information returned by authenticatorGetInfo
(`struct fido2_device_info`). -/
structure fido2_device_info where
  versions : List String
  extensions : List String
  aaguid : List Nat
  max_credential_count : Nat
  max_credential_id_length : Nat
  transports : Nat
  pin_configured : Bool
  uv_configured : Bool
  pin_retries : Nat
deriving DecidableEq, Repr

/-- PIN subsystem state machine states (spec §4.4):
`NOT_SET → SET → (VERIFY attempt)* → BLOCKED`. -/
inductive PinState where
  | not_set
  | set (pin_hash : List Nat)
  | blocked
deriving DecidableEq, Repr

/-- Outcome reported by the Verification collaborator (spec §6): presence
confirmed within the bounded wait, timeout, or no method configured. -/
inductive UpOutcome where
  | confirmed
  | timedOut
  | notConfigured
deriving DecidableEq, Repr

/-- Modelled from the spec: the authenticator core's state, owned by the
missing implementation — credential store contents, PIN record (verifier
hash/state plus retry counter), crypto-service key handles, pending-assertion
pagination state scoped to a channel, and the set of busy logical channels. -/
structure AuthState where
  creds : List fido2_credential
  pin : PinState
  pin_retries : Nat
  crypto_keys : List Nat
  next_key_id : Nat
  next_nonce : Nat
  pending : List (List Nat)
  pending_channel : Option Nat
  busy : List Nat
  max_credentials : Nat
  key_capacity : Nat
  uv_configured : Bool
deriving DecidableEq, Repr

/-- Whether a client PIN is configured: the PIN record exists (state `SET`,
or `BLOCKED` which still holds a record). -/
def AuthState.pinConfigured (st : AuthState) : Bool :=
  match st.pin with
  | .not_set => false
  | _ => true

/-- Modelled from the spec: SHA-256 of the relying party ID is computed by the
out-of-scope Crypto Service collaborator; embedded as a deterministic
stand-in function of the RP ID (no claim depends on the hash value, only on
its determinism). -/
def rpIdHash (rp : String) : List Nat :=
  rp.toList.map Char.toNat

/-- Modelled from the spec: credential ID generation (spec §4.2 step 5) draws
fresh bytes per creation; embedded as a 16-byte encoding of a per-device
nonce counter, which is deterministic, fresh per call, and well within the
128-byte bound. -/
def genCredId (nonce : Nat) : List Nat :=
  (List.range 16).map (fun i => nonce / 256 ^ i % 256)

/-- Look up a stored credential by credential ID (storage `load`). -/
def findCred (st : AuthState) (cid : List Nat) : Option fido2_credential :=
  st.creds.find? (fun c => c.id == cid)

/-- All stored credentials under a relying-party hash (storage `find_by_rp`). -/
def rpCreds (st : AuthState) (rp_hash : List Nat) : List fido2_credential :=
  st.creds.filter (fun c => c.rp_id_hash == rp_hash)

/-- Storage `increment_sign_count`: bump the signature counter of the
credential with the given ID by exactly one. -/
def incrementSignCount (st : AuthState) (cid : List Nat) : AuthState :=
  { st with creds := st.creds.map (fun c =>
      if c.id == cid then { c with sign_count := c.sign_count + 1 } else c) }

/-- Response produced by a handler: status code plus the optional payload
fields the ceremonies return (credential, assertion signature counter, auth
token, remaining PIN retries, device info). -/
structure Reply where
  status : fido2_status
  cred : Option fido2_credential := none
  sign_count : Option Nat := none
  token_issued : Bool := false
  retries_left : Option Nat := none
  info : Option fido2_device_info := none
deriving DecidableEq, Repr

/-- Decoded MakeCredential parameters (spec §4.2 inputs), including the
outcomes the Verification collaborator and token validation report for this
ceremony. -/
structure MakeCredParams where
  rp_id : String
  rp_name : String
  user_id : List Nat
  user_name : String
  user_display_name : String
  algorithm : Int
  exclude_list : List (List Nat)
  cred_protect : fido2_cred_protect
  discoverable : Bool
  require_uv : Bool
  auth_token_valid : Bool
  up : UpOutcome
deriving DecidableEq, Repr

/-- Decoded GetAssertion parameters (spec §4.3 inputs). -/
structure GetAssertParams where
  rp_id : String
  allow_list : Option (List (List Nat))
  channel : Nat
  uv_performed : Bool
  up : UpOutcome
deriving DecidableEq, Repr

/-- The credential a successful MakeCredential persists (spec §4.2 steps
4–6): fresh credential ID and key handle, the caller's RP/user attributes,
and a signature counter starting at 0. -/
def newCred (p : MakeCredParams) (st : AuthState) : fido2_credential :=
  { id := genCredId st.next_nonce
    rp_id_hash := rpIdHash p.rp_id
    rp_id := p.rp_id
    rp_name := p.rp_name
    user_name := p.user_name
    user_display_name := p.user_display_name
    user_id := p.user_id
    key_id := st.next_key_id
    sign_count := 0
    algorithm := p.algorithm
    discoverable := p.discoverable
    cred_protect := p.cred_protect }

/-- Modelled from the spec: the MakeCredential ceremony (spec §4.2, body not
in the source tree).  Steps in order: parameter bounds from the data model
(§3), auth-token validation, user presence, exclusion-list walk (before key
generation), key generation, credential ID generation, persistence; the new
credential starts with `sign_count = 0`.  Every failure leaves the state
unchanged (persistence failure releases the generated key). -/
def makeCredential (p : MakeCredParams) (st : AuthState) : Reply × AuthState :=
  if FIDO2_USER_ID_MAX_SIZE < p.user_id.length ∨ FIDO2_RP_ID_MAX_LEN < p.rp_id.length then
    ({ status := FIDO2_ERR_INVALID_LENGTH }, st)
  else if st.pinConfigured ∧ p.require_uv ∧ ¬p.auth_token_valid then
    ({ status := FIDO2_ERR_PIN_AUTH_INVALID }, st)
  else if p.up = .notConfigured then
    ({ status := FIDO2_ERR_OPERATION_DENIED }, st)
  else if p.up = .timedOut then
    ({ status := FIDO2_ERR_USER_ACTION_TIMEOUT }, st)
  else if p.exclude_list.any (fun eid => st.creds.any (fun c =>
      c.id == eid && c.rp_id_hash == rpIdHash p.rp_id && c.user_id == p.user_id)) then
    ({ status := FIDO2_ERR_CREDENTIAL_EXCLUDED }, st)
  else if p.algorithm ≠ FIDO2_COSE_ES256 then
    ({ status := FIDO2_ERR_UNSUPPORTED_ALGORITHM }, st)
  else if st.key_capacity ≤ st.crypto_keys.length then
    ({ status := FIDO2_ERR_KEY_STORE_FULL }, st)
  else if st.max_credentials ≤ st.creds.length then
    ({ status := FIDO2_ERR_LIMIT_EXCEEDED }, st)
  else
    ({ status := FIDO2_OK, cred := some (newCred p st), sign_count := some 0 },
     { st with
         creds := st.creds ++ [newCred p st]
         crypto_keys := st.crypto_keys ++ [st.next_key_id]
         next_key_id := st.next_key_id + 1
         next_nonce := st.next_nonce + 1 })

/-- Candidate selection for GetAssertion (spec §4.3): with an allow-list, the
intersection of the list with the credentials stored under the RP hash;
otherwise all discoverable credentials under that hash. -/
def candidates (p : GetAssertParams) (st : AuthState) : List fido2_credential :=
  match p.allow_list with
  | some allow => (rpCreds st (rpIdHash p.rp_id)).filter (fun c => allow.any (fun a => a == c.id))
  | none => (rpCreds st (rpIdHash p.rp_id)).filter (fun c => c.discoverable)

/-- Strictest protection level among the candidates (spec §4.3), as the
maximum of the numeric levels. -/
def strictestProtect (cs : List fido2_credential) : Nat :=
  cs.foldr (fun c m => max c.cred_protect.level m) 0

/-- Protection-level gate for GetAssertion (spec §4.3): UV-required mandates
verification regardless of the caller's flags; UV-optional-with-list is
satisfied by an explicit allow-list or verified UV. -/
def protectSatisfied (p : GetAssertParams) (cs : List fido2_credential) : Bool :=
  if strictestProtect cs = fido2_cred_protect.FIDO2_CRED_PROTECT_UV_REQUIRED.level then
    p.uv_performed
  else if strictestProtect cs = fido2_cred_protect.FIDO2_CRED_PROTECT_UV_OPTIONAL_WITH_LIST.level then
    p.allow_list.isSome || p.uv_performed
  else
    true

/-- Modelled from the spec: the GetAssertion ceremony (spec §4.3, body not in
the source tree).  Empty candidate set fails with "no credentials"; a failed
protection gate is an access denial ("operation denied"), not "no
credentials"; on success the first candidate's sign counter is incremented by
exactly one and the ordered remainder is retained as pending state scoped to
the channel. -/
def getAssertion (p : GetAssertParams) (st : AuthState) : Reply × AuthState :=
  match candidates p st with
  | [] => ({ status := FIDO2_ERR_NO_CREDENTIALS }, st)
  | c :: rest =>
    if ¬ protectSatisfied p (candidates p st) then
      ({ status := FIDO2_ERR_OPERATION_DENIED }, st)
    else if p.up = .notConfigured then
      ({ status := FIDO2_ERR_OPERATION_DENIED }, st)
    else if p.up = .timedOut then
      ({ status := FIDO2_ERR_USER_ACTION_TIMEOUT }, st)
    else
      let st' := incrementSignCount st c.id
      ({ status := FIDO2_OK, cred := some c, sign_count := some (c.sign_count + 1) },
       { st' with pending := rest.map (fun r => r.id), pending_channel := some p.channel })

/-- Modelled from the spec: GetNextAssertion (spec §4.3, body not in the
source tree).  Fails with "no operations pending" when the channel has no
pending list from a preceding GetAssertion or the list is exhausted;
otherwise pops the next pending candidate and repeats the signing step. -/
def getNextAssertion (ch : Nat) (st : AuthState) : Reply × AuthState :=
  if st.pending_channel ≠ some ch then
    ({ status := FIDO2_ERR_NO_OPERATIONS }, st)
  else
    match st.pending with
    | [] => ({ status := FIDO2_ERR_NO_OPERATIONS }, st)
    | cid :: rest =>
      match findCred st cid with
      | none => ({ status := FIDO2_ERR_NO_CREDENTIALS }, { st with pending := rest })
      | some c =>
        let st' := incrementSignCount st cid
        ({ status := FIDO2_OK, cred := some c, sign_count := some (c.sign_count + 1) },
         { st' with pending := rest })

/-- Modelled from the spec: a PIN verification attempt (spec §4.4, body not
in the source tree).  `NOT_SET` fails with "PIN not set"; `BLOCKED` fails
immediately with "PIN blocked" without touching the counter; from `SET` the
retry counter is decremented before the verifier hashes are compared — on a
match retries reset to `MAX_RETRIES` and an auth token is issued, on a
mismatch the attempt fails with "PIN blocked" (transitioning to `BLOCKED`)
when the counter has reached 0 and with "invalid PIN" reporting the remaining
retries otherwise. -/
def pinVerify (pin_hash : List Nat) (st : AuthState) : Reply × AuthState :=
  match st.pin with
  | .not_set => ({ status := FIDO2_ERR_PIN_NOT_SET }, st)
  | .blocked => ({ status := FIDO2_ERR_PIN_BLOCKED }, st)
  | .set stored =>
    if stored = pin_hash then
      ({ status := FIDO2_OK, token_issued := true },
       { st with pin_retries := FIDO2_PIN_MAX_RETRIES })
    else if st.pin_retries - 1 = 0 then
      ({ status := FIDO2_ERR_PIN_BLOCKED }, { st with pin := .blocked, pin_retries := 0 })
    else
      ({ status := FIDO2_ERR_PIN_INVALID, retries_left := some (st.pin_retries - 1) },
       { st with pin_retries := st.pin_retries - 1 })

/-- Modelled from the spec: PIN set (spec §4.4, body not in the source tree):
only valid from `NOT_SET`, requires user presence, stores the verifier hash
and initializes retries to `MAX_RETRIES`; while `BLOCKED` every PIN operation
fails immediately with "PIN blocked". -/
def pinSet (pin_hash : List Nat) (up : Bool) (st : AuthState) : Reply × AuthState :=
  match st.pin with
  | .blocked => ({ status := FIDO2_ERR_PIN_BLOCKED }, st)
  | .set _ => ({ status := FIDO2_ERR_NOT_ALLOWED }, st)
  | .not_set =>
    if up then
      ({ status := FIDO2_OK },
       { st with pin := .set pin_hash, pin_retries := FIDO2_PIN_MAX_RETRIES })
    else
      ({ status := FIDO2_ERR_USER_ACTION_TIMEOUT }, st)

/-- Modelled from the spec: PIN change (spec §4.4, body not in the source
tree): only valid from `SET`, requires a valid current-PIN verification
first. -/
def pinChange (old_hash new_hash : List Nat) (st : AuthState) : Reply × AuthState :=
  match st.pin with
  | .not_set => ({ status := FIDO2_ERR_PIN_NOT_SET }, st)
  | .blocked => ({ status := FIDO2_ERR_PIN_BLOCKED }, st)
  | .set _ =>
    if (pinVerify old_hash st).1.status = FIDO2_OK then
      ({ status := FIDO2_OK }, { (pinVerify old_hash st).2 with pin := .set new_hash })
    else
      pinVerify old_hash st

/-- ClientPIN subcommands handled by the PIN subsystem (spec §4.4). -/
inductive PinOp where
  | pin_set (pin_hash : List Nat) (up : Bool)
  | pin_change (old_hash new_hash : List Nat)
  | pin_verify (pin_hash : List Nat)
deriving DecidableEq, Repr

/-- ClientPIN handler: routes a PIN subcommand to the PIN subsystem. -/
def clientPin (op : PinOp) (st : AuthState) : Reply × AuthState :=
  match op with
  | .pin_set h up => pinSet h up st
  | .pin_change o n => pinChange o n st
  | .pin_verify h => pinVerify h st

/-- Modelled from the spec: factory reset (`fido2_reset`, spec §4.5, body not
in the source tree).  Requires user presence; on success it unconditionally
wipes the store — all credentials, crypto keys, pending assertion state, and
the PIN record back to `NOT_SET` with retries restored to `MAX_RETRIES` — in
one atomic transition; on denial nothing changes. -/
def fido2_reset (up : Bool) (st : AuthState) : Reply × AuthState :=
  if up then
    ({ status := FIDO2_OK },
     { st with
         creds := []
         pin := .not_set
         pin_retries := FIDO2_PIN_MAX_RETRIES
         crypto_keys := []
         pending := []
         pending_channel := none })
  else
    ({ status := FIDO2_ERR_OPERATION_DENIED }, st)

/-- Modelled from the spec: the device info snapshot (spec §3 "Device Info",
§6 "Device info surface"), computed on demand from current state, owning no
independent storage. -/
def computeInfo (st : AuthState) : fido2_device_info :=
  { versions := ["FIDO_2_0", "FIDO_2_1"]
    extensions := ["credProtect"]
    aaguid := List.replicate FIDO2_AAGUID_SIZE 0
    max_credential_count := st.max_credentials
    max_credential_id_length := FIDO2_CREDENTIAL_ID_MAX_SIZE
    transports := 1
    pin_configured := st.pinConfigured
    uv_configured := st.uv_configured
    pin_retries := st.pin_retries }

/-- Modelled from the spec: `fido2_get_info` (declared in `fido2.h`, body not
in the source tree).  Returns `-EINVAL` (−22) when the output pointer is
NULL, populating nothing and touching no state; otherwise returns 0 and
populates the device info structure. -/
def fido2_get_info (info_is_null : Bool) (st : AuthState) :
    Int × Option fido2_device_info × AuthState :=
  if info_is_null then
    (-22, none, st)
  else
    (0, some (computeInfo st), st)

/-- Decoded command parameters as delivered to the dispatcher after CBOR
decoding (spec §4.1: the core operates on already-decoded values). -/
inductive DecodedParams where
  | make_credential (p : MakeCredParams)
  | get_assertion (p : GetAssertParams)
  | get_info
  | client_pin (op : PinOp)
  | factory_reset (up : Bool)
  | get_next_assertion
  | credential_mgmt
deriving DecidableEq, Repr

/-- Result of the structural CBOR decode of a request's parameter map:
malformed encoding, a missing required field, or decoded parameters. -/
inductive DecodeResult where
  | invalid_cbor
  | missing_param
  | ok (p : DecodedParams)
deriving DecidableEq, Repr

/-- A decoded request as delivered by a transport: logical channel, numeric
command code, and the structural decode of its parameters. -/
structure Request where
  channel : Nat
  cmd_code : Nat
  params : DecodeResult
deriving DecidableEq, Repr

/-- Whether decoded parameters have the shape the command requires. -/
def paramsMatch (cmd : fido2_cmd) (p : DecodedParams) : Bool :=
  match cmd, p with
  | .FIDO2_CMD_MAKE_CREDENTIAL, .make_credential _ => true
  | .FIDO2_CMD_GET_ASSERTION, .get_assertion _ => true
  | .FIDO2_CMD_GET_INFO, .get_info => true
  | .FIDO2_CMD_CLIENT_PIN, .client_pin _ => true
  | .FIDO2_CMD_RESET, .factory_reset _ => true
  | .FIDO2_CMD_GET_NEXT_ASSERTION, .get_next_assertion => true
  | .FIDO2_CMD_CREDENTIAL_MGMT, .credential_mgmt => true
  | _, _ => false

/-- Modelled from the spec: the single handler invocation an accepted command
gets (spec §4.1), routed by parameter shape.  Credential-management
enumeration returns metadata without state change (spec §4.5). -/
def runHandler (ch : Nat) (p : DecodedParams) (st : AuthState) : Reply × AuthState :=
  match p with
  | .make_credential q => makeCredential q st
  | .get_assertion q => getAssertion q st
  | .get_info => ({ status := FIDO2_OK, info := some (computeInfo st) }, st)
  | .client_pin o => clientPin o st
  | .factory_reset up => fido2_reset up st
  | .get_next_assertion => getNextAssertion ch st
  | .credential_mgmt => ({ status := FIDO2_OK }, st)

/-- Modelled from the spec: the command dispatcher (spec §4.1, body not in
the source tree).  Enforces, before routing: one in-flight command per
logical channel (a second command on a busy channel is rejected with
"channel busy", not queued), recognized command code ("invalid command"
otherwise), and structurally well-formed parameters ("invalid CBOR" /
"missing parameter" before any handler runs).  An accepted command first
clears another channel-owned pending-assertion list when it is not
GetNextAssertion (spec §4.3), then invokes exactly one handler; the third
component counts handler invocations. -/
def process (req : Request) (st : AuthState) : Reply × AuthState × Nat :=
  if req.channel ∈ st.busy then
    ({ status := FIDO2_ERR_CHANNEL_BUSY }, st, 0)
  else
    match fido2_cmd.ofCode req.cmd_code with
    | none => ({ status := FIDO2_ERR_INVALID_COMMAND }, st, 0)
    | some cmd =>
      match req.params with
      | .invalid_cbor => ({ status := FIDO2_ERR_INVALID_CBOR }, st, 0)
      | .missing_param => ({ status := FIDO2_ERR_MISSING_PARAMETER }, st, 0)
      | .ok p =>
        if ¬ paramsMatch cmd p then
          ({ status := FIDO2_ERR_CBOR_UNEXPECTED_TYPE }, st, 0)
        else
          let st0 :=
            if cmd ≠ .FIDO2_CMD_GET_NEXT_ASSERTION ∧ st.pending_channel = some req.channel then
              { st with pending := [], pending_channel := none }
            else st
          let res := runHandler req.channel p st0
          (res.1, res.2, 1)

/-- A single authenticator operation, for reasoning about traces of the
handlers' effects on the store. -/
inductive Op where
  | mk_cred (p : MakeCredParams)
  | get_assert (p : GetAssertParams)
  | get_next (ch : Nat)
  | client_pin (op : PinOp)
  | factory_reset (up : Bool)
  | get_info
deriving DecidableEq, Repr

/-- One handler-level step of the authenticator: the reply and the successor
state. -/
def step (st : AuthState) (op : Op) : Reply × AuthState :=
  match op with
  | .mk_cred p => makeCredential p st
  | .get_assert p => getAssertion p st
  | .get_next ch => getNextAssertion ch st
  | .client_pin o => clientPin o st
  | .factory_reset up => fido2_reset up st
  | .get_info => ({ status := FIDO2_OK, info := some (computeInfo st) }, st)

/-- The state after running a sequence of operations. -/
def runOps (st : AuthState) (ops : List Op) : AuthState :=
  ops.foldl (fun s o => (step s o).2) st

/-- Data-model bounds on a stored credential (spec §3, mirroring the fixed
`uint8_t id[128]` / `uint8_t user_id[64]` arrays of `struct
fido2_credential`): the credential ID is at most 128 bytes and the user
handle at most 64 bytes. -/
def wfCred (c : fido2_credential) : Prop :=
  c.id.length ≤ FIDO2_CREDENTIAL_ID_MAX_SIZE ∧ c.user_id.length ≤ FIDO2_USER_ID_MAX_SIZE

instance (c : fido2_credential) : Decidable (wfCred c) := by
  unfold wfCred
  infer_instance

/-- Every credential in the store satisfies the data-model bounds. -/
def wfState (st : AuthState) : Prop :=
  ∀ c ∈ st.creds, wfCred c

instance (st : AuthState) : Decidable (wfState st) := by
  unfold wfState
  infer_instance

/-- PIN record invariant (spec §3, §4.4): the retry counter is bounded in
`[0, MAX_RETRIES]`, it is 0 exactly in the `BLOCKED` state, and while no PIN
is set it sits at `MAX_RETRIES` (its initialization value). -/
def pinWf (st : AuthState) : Prop :=
  (st.pin = .blocked ↔ st.pin_retries = 0) ∧
  (st.pin = .not_set → st.pin_retries = FIDO2_PIN_MAX_RETRIES) ∧
  st.pin_retries ≤ FIDO2_PIN_MAX_RETRIES

instance (st : AuthState) : Decidable (pinWf st) := by
  unfold pinWf
  infer_instance

/-- The stored signature counter of the credential with the given ID, when it
exists. -/
def signCountOf (st : AuthState) (cid : List Nat) : Option Nat :=
  (findCred st cid).map (fun c => c.sign_count)

/-- The retry-counter exceptions of the PIN invariant: the operation is a PIN
verification (directly, or inside a PIN change) that succeeded, or a factory
reset that was granted. -/
def verifySucceededOrReset (st : AuthState) (op : Op) : Prop :=
  match op with
  | .client_pin (.pin_verify _) => (step st op).1.status = FIDO2_OK
  | .client_pin (.pin_change _ _) => (step st op).1.status = FIDO2_OK
  | .factory_reset _ => (step st op).1.status = FIDO2_OK
  | _ => False

/-- A fresh authenticator state used as the concrete witness input. -/
def initState : AuthState :=
  { creds := []
    pin := .not_set
    pin_retries := FIDO2_PIN_MAX_RETRIES
    crypto_keys := []
    next_key_id := 0
    next_nonce := 0
    pending := []
    pending_channel := none
    busy := []
    max_credentials := 8
    key_capacity := 8
    uv_configured := false }

/-- Concrete MakeCredential parameters used as witness input. -/
def sampleMkParams : MakeCredParams :=
  { rp_id := "example.com"
    rp_name := "Example"
    user_id := [1, 2, 3]
    user_name := "alice"
    user_display_name := "Alice"
    algorithm := FIDO2_COSE_ES256
    exclude_list := []
    cred_protect := .FIDO2_CRED_PROTECT_UV_OPTIONAL
    discoverable := true
    require_uv := false
    auth_token_valid := false
    up := .confirmed }

/-- The state after registering `sampleMkParams` on a fresh authenticator. -/
def regState : AuthState :=
  (makeCredential sampleMkParams initState).2

/-- The credential ID produced by that registration. -/
def sampleCredId : List Nat :=
  genCredId 0

/-- Concrete GetAssertion parameters used as witness input, targeting the
registered sample credential. -/
def sampleGaParams : GetAssertParams :=
  { rp_id := "example.com"
    allow_list := some [sampleCredId]
    channel := 5
    uv_performed := false
    up := .confirmed }

/-- A state whose PIN record is set, used as witness input. -/
def pinSetState : AuthState :=
  { initState with pin := .set [4, 2], pin_retries := FIDO2_PIN_MAX_RETRIES }

/-- A state whose PIN is blocked, used as witness input. -/
def pinBlockedState : AuthState :=
  { initState with pin := .blocked, pin_retries := 0 }

/-- The concrete credential stored by registering `sampleMkParams` on a
fresh authenticator, written out explicitly for witness states. -/
def sampleCred : fido2_credential :=
  { id := sampleCredId
    rp_id_hash := rpIdHash "example.com"
    rp_id := "example.com"
    rp_name := "Example"
    user_name := "alice"
    user_display_name := "Alice"
    user_id := [1, 2, 3]
    key_id := 0
    sign_count := 0
    algorithm := FIDO2_COSE_ES256
    discoverable := true
    cred_protect := .FIDO2_CRED_PROTECT_UV_OPTIONAL }

/-- A state holding just the sample credential, used as witness input. -/
def exclState : AuthState :=
  { initState with creds := [sampleCred] }

/-- The sample credential at protection level UV-required. -/
def uvReqCred : fido2_credential :=
  { sampleCred with cred_protect := .FIDO2_CRED_PROTECT_UV_REQUIRED }

/-- A state holding just the UV-required sample credential, used as witness
input. -/
def uvReqState : AuthState :=
  { initState with creds := [uvReqCred] }

/-- A state whose channel 7 has a command in flight, used as witness input. -/
def busyState : AuthState :=
  { initState with busy := [7] }

/-- C10: `fido2_get_info` returns `-EINVAL` (−22) when called with a NULL
info pointer, populating nothing and modifying no authenticator state; for
every non-NULL pointer it returns 0 and populates the device info structure
computed from the current state. -/
theorem fido2_get_info_null_einval (st : AuthState) :
    fido2_get_info true st = (-22, none, st) ∧
    fido2_get_info false st = (0, some (computeInfo st), st) :=
  ⟨rfl, rfl⟩

/-- C4: factory reset with user presence always succeeds, transitioning the
PIN state to `NOT_SET` (retries restored to `MAX_RETRIES`) and emptying the
credential store in the same single transition (so no outcome has some
credentials wiped while the PIN remains set); a denied reset changes nothing
at all.  Every outcome is all-or-nothing. -/
theorem fido2_reset_wipes_atomically (st : AuthState) :
    (fido2_reset true st).1.status = FIDO2_OK ∧
    (fido2_reset true st).2.pin = PinState.not_set ∧
    (fido2_reset true st).2.creds = [] ∧
    (fido2_reset true st).2.pin_retries = FIDO2_PIN_MAX_RETRIES ∧
    fido2_reset false st = ({ status := FIDO2_ERR_OPERATION_DENIED }, st) :=
  ⟨rfl, rfl, rfl, rfl, rfl⟩

/-- C7: a GetAssertion whose candidate set after selection is empty fails
with "no credentials"; a GetNextAssertion on a channel with no pending list
from a preceding GetAssertion, or whose pending list has been exhausted,
fails with "no operations pending".  All three cases leave the state
unchanged. -/
theorem getAssertion_empty_and_getNext_exhausted :
    (∀ p st, candidates p st = [] →
      getAssertion p st = ({ status := FIDO2_ERR_NO_CREDENTIALS }, st)) ∧
    (∀ ch st, st.pending_channel ≠ some ch →
      getNextAssertion ch st = ({ status := FIDO2_ERR_NO_OPERATIONS }, st)) ∧
    (∀ ch st, st.pending = [] →
      getNextAssertion ch st = ({ status := FIDO2_ERR_NO_OPERATIONS }, st)) := by
  refine ⟨?_, ?_, ?_⟩
  · intro p st h
    unfold getAssertion
    rw [h]
  · intro ch st h
    unfold getNextAssertion
    rw [if_pos h]
  · intro ch st h
    unfold getNextAssertion
    rw [h]
    split <;> rfl

/-- Concrete run of C7: on a fresh authenticator the sample GetAssertion has
no candidates and fails with "no credentials". -/
theorem getAssertion_empty_witness :
    getAssertion sampleGaParams initState =
      ({ status := FIDO2_ERR_NO_CREDENTIALS }, initState) :=
  getAssertion_empty_and_getNext_exhausted.1 sampleGaParams initState (by decide)

/-- MakeCredential never touches the PIN record. -/
theorem makeCredential_pin (p : MakeCredParams) (st : AuthState) :
    (makeCredential p st).2.pin = st.pin ∧
    (makeCredential p st).2.pin_retries = st.pin_retries := by
  unfold makeCredential
  repeat' split
  all_goals exact ⟨rfl, rfl⟩

/-- GetAssertion never touches the PIN record. -/
theorem getAssertion_pin (p : GetAssertParams) (st : AuthState) :
    (getAssertion p st).2.pin = st.pin ∧
    (getAssertion p st).2.pin_retries = st.pin_retries := by
  unfold getAssertion
  repeat' split
  all_goals exact ⟨rfl, rfl⟩

/-- GetNextAssertion never touches the PIN record. -/
theorem getNextAssertion_pin (ch : Nat) (st : AuthState) :
    (getNextAssertion ch st).2.pin = st.pin ∧
    (getNextAssertion ch st).2.pin_retries = st.pin_retries := by
  unfold getNextAssertion
  repeat' split
  all_goals exact ⟨rfl, rfl⟩

/-- A PIN verification attempt in the `BLOCKED` state fails immediately with
"PIN blocked" and changes nothing. -/
theorem pinVerify_blocked (st : AuthState) (hb : st.pin = .blocked) (h : List Nat) :
    pinVerify h st = ({ status := FIDO2_ERR_PIN_BLOCKED }, st) := by
  unfold pinVerify
  rw [hb]

/-- C3: a PIN verification attempt in the `SET` state decrements the retry
counter before the verifier hashes are compared (the model computes the
decremented value first and every failing outcome exposes it): on a match the
counter is reset to `MAX_RETRIES` and an auth token is issued; on a mismatch
the attempt fails with "PIN blocked" and transitions to `BLOCKED` when the
decremented counter has reached 0, and otherwise fails with "invalid PIN"
reporting the remaining (decremented) retries. -/
theorem pinVerify_set_behavior (st : AuthState) (stored pin_hash : List Nat)
    (hset : st.pin = .set stored) :
    (stored = pin_hash →
      pinVerify pin_hash st =
        ({ status := FIDO2_OK, token_issued := true },
         { st with pin_retries := FIDO2_PIN_MAX_RETRIES })) ∧
    (stored ≠ pin_hash → st.pin_retries = 1 →
      pinVerify pin_hash st =
        ({ status := FIDO2_ERR_PIN_BLOCKED },
         { st with pin := .blocked, pin_retries := 0 })) ∧
    (stored ≠ pin_hash → 1 < st.pin_retries →
      pinVerify pin_hash st =
        ({ status := FIDO2_ERR_PIN_INVALID, retries_left := some (st.pin_retries - 1) },
         { st with pin_retries := st.pin_retries - 1 })) := by
  unfold pinVerify
  rw [hset]
  dsimp only
  refine ⟨?_, ?_, ?_⟩
  · intro he
    rw [if_pos he]
  · intro hne h1
    rw [if_neg hne, h1]
    norm_num
  · intro hne hgt
    rw [if_neg hne, if_neg (by omega)]

/-- Concrete run of C3: on a set PIN with 8 retries, a wrong verifier fails
with "invalid PIN" and reports 7 remaining retries. -/
theorem pinVerify_set_behavior_witness :
    pinVerify [0] pinSetState =
      ({ status := FIDO2_ERR_PIN_INVALID, retries_left := some 7 },
       { pinSetState with pin_retries := 7 }) :=
  (pinVerify_set_behavior pinSetState [4, 2] [0] rfl).2.2 (by decide) (by decide)

/-- Transport of the PIN invariant along states that agree on the PIN
record. -/
theorem pinWf_of_eq (st st' : AuthState) (hp : st'.pin = st.pin)
    (hr : st'.pin_retries = st.pin_retries) (hwf : pinWf st) : pinWf st' := by
  unfold pinWf at hwf ⊢
  rw [hp, hr]
  exact hwf

/-- A PIN verification attempt preserves the PIN invariant. -/
theorem pinVerify_wf (h : List Nat) (st : AuthState) (hwf : pinWf st) :
    pinWf (pinVerify h st).2 := by
  obtain ⟨h1, h2, h3⟩ := hwf
  unfold pinVerify
  cases hp : st.pin with
  | not_set => exact ⟨h1, h2, h3⟩
  | blocked => exact ⟨h1, h2, h3⟩
  | set stored =>
    dsimp only
    split
    · exact ⟨by simp [FIDO2_PIN_MAX_RETRIES], fun _ => rfl, Nat.le_refl _⟩
    · split
      · exact ⟨by simp, by simp, Nat.zero_le _⟩
      · next hr =>
        exact ⟨by simp [hr], by simp, by dsimp only; omega⟩

/-- A PIN verification attempt never increases the retry counter except by
resetting it to `MAX_RETRIES` on success. -/
theorem pinVerify_retries (h : List Nat) (st : AuthState) :
    (pinVerify h st).2.pin_retries ≤ st.pin_retries ∨
    ((pinVerify h st).2.pin_retries = FIDO2_PIN_MAX_RETRIES ∧
     (pinVerify h st).1.status = FIDO2_OK) := by
  unfold pinVerify
  cases hp : st.pin with
  | not_set => exact Or.inl (Nat.le_refl _)
  | blocked => exact Or.inl (Nat.le_refl _)
  | set stored =>
    dsimp only
    split
    · exact Or.inr ⟨rfl, rfl⟩
    · split
      · exact Or.inl (Nat.zero_le _)
      · exact Or.inl (Nat.sub_le _ _)

/-- Setting a PIN preserves the PIN invariant. -/
theorem pinSet_wf (h : List Nat) (up : Bool) (st : AuthState) (hwf : pinWf st) :
    pinWf (pinSet h up st).2 := by
  obtain ⟨h1, h2, h3⟩ := hwf
  unfold pinSet
  cases hp : st.pin with
  | not_set =>
    dsimp only
    split
    · exact ⟨by simp [FIDO2_PIN_MAX_RETRIES], fun _ => rfl, Nat.le_refl _⟩
    · exact ⟨h1, h2, h3⟩
  | blocked => exact ⟨h1, h2, h3⟩
  | set stored => exact ⟨h1, h2, h3⟩

/-- Setting a PIN never increases the retry counter: it is only accepted in
the `NOT_SET` state, where the invariant pins the counter at
`MAX_RETRIES` already. -/
theorem pinSet_retries (h : List Nat) (up : Bool) (st : AuthState) (hwf : pinWf st) :
    (pinSet h up st).2.pin_retries ≤ st.pin_retries := by
  obtain ⟨h1, h2, h3⟩ := hwf
  unfold pinSet
  cases hp : st.pin with
  | not_set =>
    dsimp only
    split
    · rw [h2 hp]
    · exact Nat.le_refl _
  | blocked => exact Nat.le_refl _
  | set stored => exact Nat.le_refl _

/-- A successful PIN verification leaves the retry counter at
`MAX_RETRIES`. -/
theorem pinVerify_ok (h : List Nat) (st : AuthState)
    (hok : (pinVerify h st).1.status = FIDO2_OK) :
    (pinVerify h st).2.pin_retries = FIDO2_PIN_MAX_RETRIES := by
  unfold pinVerify at hok ⊢
  cases hp : st.pin with
  | not_set => rw [hp] at hok; simp at hok
  | blocked => rw [hp] at hok; simp at hok
  | set stored =>
    rw [hp] at hok
    dsimp only at hok ⊢
    split at hok
    · next he => rw [if_pos he]
    · next he =>
      split at hok <;> simp at hok

/-- Changing the PIN preserves the PIN invariant. -/
theorem pinChange_wf (o n : List Nat) (st : AuthState) (hwf : pinWf st) :
    pinWf (pinChange o n st).2 := by
  have h0 := hwf
  obtain ⟨h1, h2, h3⟩ := hwf
  unfold pinChange
  cases hp : st.pin with
  | not_set => exact ⟨h1, h2, h3⟩
  | blocked => exact ⟨h1, h2, h3⟩
  | set stored =>
    dsimp only
    split
    · next hok =>
      have hr := pinVerify_ok o st hok
      exact ⟨by simp [hr, FIDO2_PIN_MAX_RETRIES], by intro hx; simp at hx, by simp [hr]⟩
    · exact pinVerify_wf o st h0

/-- Changing the PIN never increases the retry counter except by resetting it
to `MAX_RETRIES` when the current-PIN verification succeeds. -/
theorem pinChange_retries (o n : List Nat) (st : AuthState) :
    (pinChange o n st).2.pin_retries ≤ st.pin_retries ∨
    ((pinChange o n st).2.pin_retries = FIDO2_PIN_MAX_RETRIES ∧
     (pinChange o n st).1.status = FIDO2_OK) := by
  unfold pinChange
  cases hp : st.pin with
  | not_set => exact Or.inl (Nat.le_refl _)
  | blocked => exact Or.inl (Nat.le_refl _)
  | set stored =>
    dsimp only
    split
    · next hok => exact Or.inr ⟨by simp [pinVerify_ok o st hok], rfl⟩
    · exact Or.inl (by
        rcases pinVerify_retries o st with hle | ⟨hmax, hok⟩
        · exact hle
        · next hne => exact absurd hok hne)

/-- Every operation preserves the PIN invariant. -/
theorem pinWf_step (st : AuthState) (op : Op) (hwf : pinWf st) : pinWf (step st op).2 := by
  cases op with
  | mk_cred p =>
    exact pinWf_of_eq st _ (makeCredential_pin p st).1 (makeCredential_pin p st).2 hwf
  | get_assert p =>
    exact pinWf_of_eq st _ (getAssertion_pin p st).1 (getAssertion_pin p st).2 hwf
  | get_next ch =>
    exact pinWf_of_eq st _ (getNextAssertion_pin ch st).1 (getNextAssertion_pin ch st).2 hwf
  | client_pin o =>
    cases o with
    | pin_set h up => exact pinSet_wf h up st hwf
    | pin_change o n => exact pinChange_wf o n st hwf
    | pin_verify h => exact pinVerify_wf h st hwf
  | factory_reset up =>
    cases up with
    | true =>
      exact ⟨by simp [step, fido2_reset, FIDO2_PIN_MAX_RETRIES], fun _ => rfl, Nat.le_refl _⟩
    | false => exact hwf
  | get_info => exact hwf

/-- Per-operation retry-counter behavior: the counter never increases except
by a reset to `MAX_RETRIES` caused by a successful PIN verification or a
granted factory reset. -/
theorem retries_step (st : AuthState) (op : Op) (hwf : pinWf st) :
    (step st op).2.pin_retries ≤ st.pin_retries ∨
    ((step st op).2.pin_retries = FIDO2_PIN_MAX_RETRIES ∧ verifySucceededOrReset st op) := by
  cases op with
  | mk_cred p => exact Or.inl (le_of_eq (makeCredential_pin p st).2)
  | get_assert p => exact Or.inl (le_of_eq (getAssertion_pin p st).2)
  | get_next ch => exact Or.inl (le_of_eq (getNextAssertion_pin ch st).2)
  | client_pin o =>
    cases o with
    | pin_set h up => exact Or.inl (pinSet_retries h up st hwf)
    | pin_change o n =>
      rcases pinChange_retries o n st with hle | ⟨hmax, hok⟩
      · exact Or.inl hle
      · exact Or.inr ⟨hmax, hok⟩
    | pin_verify h =>
      rcases pinVerify_retries h st with hle | ⟨hmax, hok⟩
      · exact Or.inl hle
      · exact Or.inr ⟨hmax, hok⟩
  | factory_reset up =>
    cases up with
    | true => exact Or.inr ⟨rfl, rfl⟩
    | false => exact Or.inl (Nat.le_refl _)
  | get_info => exact Or.inl (Nat.le_refl _)

/-- The PIN invariant is maintained along every trace of operations. -/
theorem pinWf_runOps (st : AuthState) (ops : List Op) (hwf : pinWf st) :
    pinWf (runOps st ops) := by
  induction ops generalizing st with
  | nil => exact hwf
  | cons o rest ih => exact ih (step st o).2 (pinWf_step st o hwf)

/-- C2: across every operation the PIN retry counter is monotonically
non-increasing except that a successful verification (directly or inside a
PIN change) or a granted factory reset resets it to `MAX_RETRIES`; once the
counter reaches zero the PIN record is `BLOCKED` and no verification call
succeeds or consumes a retry — even with the correct PIN — the state being
left exactly unchanged, while a factory reset restores the counter; the
invariant is maintained along every trace of operations. -/
theorem pin_retry_lockout (st : AuthState) (hwf : pinWf st) :
    (∀ op, (step st op).2.pin_retries ≤ st.pin_retries ∨
           ((step st op).2.pin_retries = FIDO2_PIN_MAX_RETRIES ∧ verifySucceededOrReset st op)) ∧
    (st.pin_retries = 0 →
      ∀ h, pinVerify h st = ({ status := FIDO2_ERR_PIN_BLOCKED }, st)) ∧
    (fido2_reset true st).2.pin_retries = FIDO2_PIN_MAX_RETRIES ∧
    (∀ ops, pinWf (runOps st ops)) := by
  refine ⟨fun op => retries_step st op hwf, fun h0 h => ?_, rfl,
    fun ops => pinWf_runOps st ops hwf⟩
  exact pinVerify_blocked st (hwf.1.mpr h0) h

/-- Concrete run of C2: in the blocked state even the PIN that was originally
set is rejected with "PIN blocked" and nothing changes. -/
theorem pin_retry_lockout_witness :
    pinVerify [4, 2] pinBlockedState = ({ status := FIDO2_ERR_PIN_BLOCKED }, pinBlockedState) :=
  (pin_retry_lockout pinBlockedState (by decide)).2.1 rfl [4, 2]

/-- C5: a MakeCredential call whose exclusion list contains the ID of a
credential already stored for the same relying party and the same user
handle (and which reaches the exclusion walk: parameters within bounds,
auth-token gate passed, presence confirmed) fails with "credential already
registered" and returns the state exactly unchanged — so no new credential
is stored and, the key counters being untouched, no key was generated:
the check happens before key generation. -/
theorem makeCredential_excluded (p : MakeCredParams) (st : AuthState)
    (c : fido2_credential) (hmem : c ∈ st.creds) (hex : c.id ∈ p.exclude_list)
    (hrp : c.rp_id_hash = rpIdHash p.rp_id) (huser : c.user_id = p.user_id)
    (hlen : ¬(FIDO2_USER_ID_MAX_SIZE < p.user_id.length ∨
              FIDO2_RP_ID_MAX_LEN < p.rp_id.length))
    (hauth : ¬(st.pinConfigured ∧ p.require_uv ∧ ¬p.auth_token_valid))
    (hup : p.up = .confirmed) :
    makeCredential p st = ({ status := FIDO2_ERR_CREDENTIAL_EXCLUDED }, st) := by
  have hex' : (p.exclude_list.any fun eid => st.creds.any fun c2 =>
      c2.id == eid && c2.rp_id_hash == rpIdHash p.rp_id && c2.user_id == p.user_id) = true := by
    rw [List.any_eq_true]
    refine ⟨c.id, hex, ?_⟩
    rw [List.any_eq_true]
    exact ⟨c, hmem, by simp [hrp, huser]⟩
  unfold makeCredential
  rw [if_neg hlen, if_neg hauth, if_neg (by simp [hup]), if_neg (by simp [hup]),
    if_pos hex']

/-- Concrete run of C5: excluding the stored sample credential makes the
sample registration fail with "credential already registered" and leaves the
state untouched. -/
theorem makeCredential_excluded_witness :
    makeCredential { sampleMkParams with exclude_list := [sampleCredId] } exclState =
      ({ status := FIDO2_ERR_CREDENTIAL_EXCLUDED }, exclState) :=
  makeCredential_excluded _ exclState sampleCred (by simp [exclState, initState])
    (by simp [sampleCred]) rfl rfl (by decide) (by decide) rfl

/-- Each candidate's protection level is bounded by the strictest one. -/
theorem level_le_strictestProtect (cs : List fido2_credential) (c : fido2_credential)
    (hc : c ∈ cs) : c.cred_protect.level ≤ strictestProtect cs := by
  induction cs with
  | nil => cases hc
  | cons x xs ih =>
    rcases List.mem_cons.mp hc with h | h
    · subst h
      exact le_max_left _ _
    · exact le_trans (ih h) (le_max_right _ _)

/-- The strictest protection level never exceeds UV-required (level 3). -/
theorem strictestProtect_le_three (cs : List fido2_credential) :
    strictestProtect cs ≤ 3 := by
  induction cs with
  | nil => exact Nat.zero_le 3
  | cons x xs ih =>
    have hx : x.cred_protect.level ≤ 3 := by
      cases hpr : x.cred_protect <;> simp [fido2_cred_protect.level]
    exact max_le hx ih

/-- C6: a GetAssertion whose candidate set contains a credential with
protection level UV-required, made without user verification, fails with
"operation denied" — never with "no credentials" — and changes nothing, even
though a matching credential exists. -/
theorem getAssertion_uv_required_denied (p : GetAssertParams) (st : AuthState)
    (c : fido2_credential) (hc : c ∈ candidates p st)
    (hprot : c.cred_protect = .FIDO2_CRED_PROTECT_UV_REQUIRED)
    (huv : p.uv_performed = false) :
    getAssertion p st = ({ status := FIDO2_ERR_OPERATION_DENIED }, st) ∧
    (getAssertion p st).1.status ≠ FIDO2_ERR_NO_CREDENTIALS := by
  have h3 : strictestProtect (candidates p st) = 3 := by
    have h1 := level_le_strictestProtect (candidates p st) c hc
    rw [hprot] at h1
    simp [fido2_cred_protect.level] at h1
    exact le_antisymm (strictestProtect_le_three _) h1
  have hns : protectSatisfied p (candidates p st) = false := by
    unfold protectSatisfied
    rw [if_pos (by rw [h3]; rfl)]
    exact huv
  have heq : getAssertion p st = ({ status := FIDO2_ERR_OPERATION_DENIED }, st) := by
    unfold getAssertion
    cases hcs : candidates p st with
    | nil => rw [hcs] at hc; cases hc
    | cons a as =>
      rw [hcs] at hns
      dsimp only
      rw [if_pos (by simp [hns])]
  exact ⟨heq, by rw [heq]; simp⟩

/-- Concrete run of C6: the stored UV-required sample credential is matched
by the sample GetAssertion without UV, which is denied rather than reported
as "no credentials". -/
theorem getAssertion_uv_required_denied_witness :
    getAssertion sampleGaParams uvReqState =
      ({ status := FIDO2_ERR_OPERATION_DENIED }, uvReqState) :=
  (getAssertion_uv_required_denied sampleGaParams uvReqState uvReqCred
    (by decide) rfl rfl).1

/-- C8: dispatcher preconditions are enforced before routing — a second
command on a busy channel is rejected with "channel busy" (state unchanged,
nothing queued, no handler run); an unrecognized command code yields "invalid
command"; structurally malformed parameters yield "invalid CBOR" or "missing
parameter" with no handler run and no state change; and every accepted
command invokes exactly one handler. -/
theorem dispatcher_preconditions :
    (∀ req st, req.channel ∈ st.busy →
      process req st = ({ status := FIDO2_ERR_CHANNEL_BUSY }, st, 0)) ∧
    (∀ req st, req.channel ∉ st.busy → fido2_cmd.ofCode req.cmd_code = none →
      process req st = ({ status := FIDO2_ERR_INVALID_COMMAND }, st, 0)) ∧
    (∀ req st cmd, req.channel ∉ st.busy → fido2_cmd.ofCode req.cmd_code = some cmd →
      req.params = DecodeResult.invalid_cbor →
      process req st = ({ status := FIDO2_ERR_INVALID_CBOR }, st, 0)) ∧
    (∀ req st cmd, req.channel ∉ st.busy → fido2_cmd.ofCode req.cmd_code = some cmd →
      req.params = DecodeResult.missing_param →
      process req st = ({ status := FIDO2_ERR_MISSING_PARAMETER }, st, 0)) ∧
    (∀ req st cmd p, req.channel ∉ st.busy → fido2_cmd.ofCode req.cmd_code = some cmd →
      req.params = DecodeResult.ok p → paramsMatch cmd p = true →
      (process req st).2.2 = 1) := by
  refine ⟨?_, ?_, ?_, ?_, ?_⟩
  · intro req st hbusy
    unfold process
    rw [if_pos hbusy]
  · intro req st hbusy hcode
    unfold process
    rw [if_neg hbusy, hcode]
  · intro req st cmd hbusy hcode hparams
    unfold process
    rw [if_neg hbusy, hcode, hparams]
  · intro req st cmd hbusy hcode hparams
    unfold process
    rw [if_neg hbusy, hcode, hparams]
  · intro req st cmd p hbusy hcode hparams hmatch
    unfold process
    rw [if_neg hbusy, hcode, hparams]
    dsimp only
    rw [if_neg (by simp [hmatch])]

/-- Concrete run of C8: a second command on busy channel 7 is rejected with
"channel busy", the state unchanged and no handler invoked. -/
theorem dispatcher_preconditions_witness :
    process { channel := 7, cmd_code := 0x04, params := .ok .get_info } busyState =
      ({ status := FIDO2_ERR_CHANNEL_BUSY }, busyState, 0) :=
  dispatcher_preconditions.1 { channel := 7, cmd_code := 0x04, params := .ok .get_info }
    busyState (by decide)

/-- Generated credential IDs are 16 bytes long. -/
theorem genCredId_length (n : Nat) : (genCredId n).length = 16 := by
  simp [genCredId]

/-- MakeCredential either fails, changing nothing and returning no
credential, or succeeds, returning `newCred` with counter 0 and appending it
to the store while allocating exactly one key. -/
theorem makeCredential_cases (p : MakeCredParams) (st : AuthState) :
    ((makeCredential p st).1.status ≠ FIDO2_OK ∧ (makeCredential p st).2 = st ∧
      (makeCredential p st).1.cred = none) ∨
    ((makeCredential p st).1.status = FIDO2_OK ∧
      p.user_id.length ≤ FIDO2_USER_ID_MAX_SIZE ∧
      (makeCredential p st).1.cred = some (newCred p st) ∧
      (makeCredential p st).1.sign_count = some 0 ∧
      (makeCredential p st).2 = { st with
        creds := st.creds ++ [newCred p st]
        crypto_keys := st.crypto_keys ++ [st.next_key_id]
        next_key_id := st.next_key_id + 1
        next_nonce := st.next_nonce + 1 }) := by
  unfold makeCredential
  repeat' split
  all_goals
    first
    | exact Or.inl ⟨by simp, rfl, rfl⟩
    | (rename_i h1 h2 h3 h4 h5 h6 h7 h8
       exact Or.inr ⟨rfl, Nat.le_of_not_lt (mt Or.inl h1), rfl, rfl, rfl⟩)

/-- The new credential of a successful MakeCredential is within the data
model bounds. -/
theorem wfCred_newCred (p : MakeCredParams) (st : AuthState)
    (hlen : p.user_id.length ≤ FIDO2_USER_ID_MAX_SIZE) : wfCred (newCred p st) := by
  constructor
  · show (genCredId st.next_nonce).length ≤ _
    rw [genCredId_length]
    decide
  · exact hlen

/-- Incrementing a sign counter preserves the data-model bounds of every
stored credential. -/
theorem wf_incrementSignCount (st : AuthState) (cid : List Nat) (hwf : wfState st) :
    wfState (incrementSignCount st cid) := by
  intro c hc
  unfold incrementSignCount at hc
  dsimp only at hc
  rcases List.mem_map.mp hc with ⟨c0, hc0, hceq⟩
  subst hceq
  split
  · exact hwf c0 hc0
  · exact hwf c0 hc0

/-- GetAssertion leaves the store's credentials unchanged apart from at most
one sign-counter increment. -/
theorem getAssertion_creds (p : GetAssertParams) (st : AuthState) :
    (getAssertion p st).2.creds = st.creds ∨
    ∃ cid, (getAssertion p st).2.creds = (incrementSignCount st cid).creds := by
  unfold getAssertion
  repeat' split
  all_goals first | exact Or.inl rfl | exact Or.inr ⟨_, rfl⟩

/-- GetNextAssertion leaves the store's credentials unchanged apart from at
most one sign-counter increment. -/
theorem getNextAssertion_creds (ch : Nat) (st : AuthState) :
    (getNextAssertion ch st).2.creds = st.creds ∨
    ∃ cid, (getNextAssertion ch st).2.creds = (incrementSignCount st cid).creds := by
  unfold getNextAssertion
  repeat' split
  all_goals first | exact Or.inl rfl | exact Or.inr ⟨_, rfl⟩

/-- ClientPIN operations never touch the credential store. -/
theorem clientPin_creds (o : PinOp) (st : AuthState) :
    (clientPin o st).2.creds = st.creds := by
  cases o with
  | pin_set h up =>
    show (pinSet h up st).2.creds = st.creds
    unfold pinSet
    repeat' split
    all_goals rfl
  | pin_change o n =>
    show (pinChange o n st).2.creds = st.creds
    unfold pinChange pinVerify
    repeat' (first | rfl | dsimp only | split)
  | pin_verify h =>
    show (pinVerify h st).2.creds = st.creds
    unfold pinVerify
    repeat' split
    all_goals rfl

/-- ClientPIN operations never return a credential. -/
theorem clientPin_cred_none (o : PinOp) (st : AuthState) :
    (clientPin o st).1.cred = none := by
  cases o with
  | pin_set h up =>
    show (pinSet h up st).1.cred = none
    unfold pinSet
    repeat' split
    all_goals rfl
  | pin_change o n =>
    show (pinChange o n st).1.cred = none
    unfold pinChange pinVerify
    repeat' (first | rfl | dsimp only | split)
  | pin_verify h =>
    show (pinVerify h st).1.cred = none
    unfold pinVerify
    repeat' split
    all_goals rfl

/-- Candidates of a GetAssertion are stored credentials. -/
theorem candidates_subset (p : GetAssertParams) (st : AuthState) (c : fido2_credential)
    (hc : c ∈ candidates p st) : c ∈ st.creds := by
  unfold candidates rpCreds at hc
  cases hal : p.allow_list with
  | none =>
    rw [hal] at hc
    exact (List.mem_filter.mp (List.mem_filter.mp hc).1).1
  | some allow =>
    rw [hal] at hc
    exact (List.mem_filter.mp (List.mem_filter.mp hc).1).1

/-- The credential a GetAssertion reply carries is a stored credential. -/
theorem getAssertion_cred_mem (p : GetAssertParams) (st : AuthState) (c : fido2_credential)
    (hc : (getAssertion p st).1.cred = some c) : c ∈ st.creds := by
  unfold getAssertion at hc
  cases hcs : candidates p st with
  | nil => rw [hcs] at hc; simp at hc
  | cons a as =>
    rw [hcs] at hc
    dsimp only at hc
    split at hc
    · simp at hc
    · split at hc
      · simp at hc
      · split at hc
        · simp at hc
        · have ha : a = c := by simpa using hc
          subst ha
          exact candidates_subset p st a (by rw [hcs]; exact List.mem_cons_self a as)

/-- The credential a GetNextAssertion reply carries is a stored
credential. -/
theorem getNextAssertion_cred_mem (ch : Nat) (st : AuthState) (c : fido2_credential)
    (hc : (getNextAssertion ch st).1.cred = some c) : c ∈ st.creds := by
  unfold getNextAssertion at hc
  split at hc
  · simp at hc
  · split at hc
    · simp at hc
    · split at hc
      · simp at hc
      · next c0 hfound =>
        have hc0 : c0 = c := by simpa using hc
        subst hc0
        exact List.mem_of_find?_eq_some hfound

/-- Every operation preserves the data-model bounds of all stored
credentials. -/
theorem wfState_step (st : AuthState) (op : Op) (hwf : wfState st) :
    wfState (step st op).2 := by
  cases op with
  | mk_cred p =>
    show wfState (makeCredential p st).2
    rcases makeCredential_cases p st with ⟨_, hst, _⟩ | ⟨_, hlen, _, _, hst⟩
    · rw [hst]; exact hwf
    · rw [hst]
      intro c hcmem
      rcases List.mem_append.mp hcmem with h | h
      · exact hwf c h
      · rw [List.mem_singleton] at h
        subst h
        exact wfCred_newCred p st hlen
  | get_assert p =>
    show wfState (getAssertion p st).2
    intro c hcmem
    rcases getAssertion_creds p st with h | ⟨cid, h⟩
    · rw [h] at hcmem; exact hwf c hcmem
    · rw [h] at hcmem; exact wf_incrementSignCount st cid hwf c hcmem
  | get_next ch =>
    show wfState (getNextAssertion ch st).2
    intro c hcmem
    rcases getNextAssertion_creds ch st with h | ⟨cid, h⟩
    · rw [h] at hcmem; exact hwf c hcmem
    · rw [h] at hcmem; exact wf_incrementSignCount st cid hwf c hcmem
  | client_pin o =>
    show wfState (clientPin o st).2
    intro c hcmem
    rw [clientPin_creds o st] at hcmem
    exact hwf c hcmem
  | factory_reset up =>
    cases up with
    | true => intro c hcmem; simp [step, fido2_reset] at hcmem
    | false => exact hwf
  | get_info => exact hwf

/-- The data-model bounds are maintained along every trace of operations. -/
theorem wfState_runOps (st : AuthState) (ops : List Op) (hwf : wfState st) :
    wfState (runOps st ops) := by
  induction ops generalizing st with
  | nil => exact hwf
  | cons o rest ih => exact ih (step st o).2 (wfState_step st o hwf)

/-- Every credential an operation's reply carries is within the data-model
bounds. -/
theorem step_reply_cred_wf (st : AuthState) (op : Op) (hwf : wfState st)
    (c : fido2_credential) (hc : (step st op).1.cred = some c) : wfCred c := by
  cases op with
  | mk_cred p =>
    have hc' : (makeCredential p st).1.cred = some c := hc
    rcases makeCredential_cases p st with ⟨_, _, hnone⟩ | ⟨_, hlen, hsome, _, _⟩
    · rw [hnone] at hc'; cases hc'
    · rw [hsome] at hc'
      have := Option.some.inj hc'
      subst this
      exact wfCred_newCred p st hlen
  | get_assert p => exact hwf c (getAssertion_cred_mem p st c hc)
  | get_next ch => exact hwf c (getNextAssertion_cred_mem ch st c hc)
  | client_pin o =>
    have hc' : (clientPin o st).1.cred = some c := hc
    rw [clientPin_cred_none o st] at hc'
    cases hc'
  | factory_reset up =>
    cases up with
    | true => simp [step, fido2_reset] at hc
    | false => simp [step, fido2_reset] at hc
  | get_info => simp [step] at hc

/-- C9: every stored credential keeps a credential ID of at most 128 bytes
and a user handle of at most 64 bytes; the bounds hold after every single
operation, for every credential any reply returns, and along every trace of
operations. -/
theorem credential_bounds (st : AuthState) (hwf : wfState st) :
    (∀ op, wfState (step st op).2) ∧
    (∀ op c, (step st op).1.cred = some c → wfCred c) ∧
    (∀ ops, wfState (runOps st ops)) :=
  ⟨fun op => wfState_step st op hwf,
   fun op c hc => step_reply_cred_wf st op hwf c hc,
   fun ops => wfState_runOps st ops hwf⟩

/-- Concrete run of C9: after registering the sample credential on a fresh
authenticator every stored credential is within the bounds. -/
theorem credential_bounds_witness :
    wfState (step initState (Op.mk_cred sampleMkParams)).2 :=
  (credential_bounds initState (by decide)).1 (Op.mk_cred sampleMkParams)

/-- A lookup that succeeds still succeeds, with the same result, after an
append. -/
theorem find?_append_some (p2 : fido2_credential → Bool) (l₁ l₂ : List fido2_credential)
    (a : fido2_credential) (h : l₁.find? p2 = some a) :
    (l₁ ++ l₂).find? p2 = some a := by
  induction l₁ with
  | nil => simp at h
  | cons x xs ih =>
    rw [List.cons_append]
    by_cases hx : p2 x = true
    · rw [List.find?_cons_of_pos _ hx] at h ⊢
      exact h
    · rw [List.find?_cons_of_neg _ (by simpa using hx)] at h ⊢
      exact ih h

/-- Bumping the sign counters of the credentials whose ID is `tid` commutes
with an ID lookup. -/
theorem find?_map_bump (tid cid : List Nat) (l : List fido2_credential) :
    (l.map (fun c => if c.id == tid then { c with sign_count := c.sign_count + 1 } else c)).find?
        (fun c => c.id == cid) =
      (l.find? (fun c => c.id == cid)).map
        (fun c => if c.id == tid then { c with sign_count := c.sign_count + 1 } else c) := by
  induction l with
  | nil => rfl
  | cons x xs ih =>
    rw [List.map_cons]
    by_cases hx : (x.id == cid) = true
    · have hfx : ((if x.id == tid then { x with sign_count := x.sign_count + 1 } else x).id ==
          cid) = true := by
        split <;> exact hx
      rw [@List.find?_cons_of_pos _ (fun c : fido2_credential => c.id == cid) _ _ hfx,
        @List.find?_cons_of_pos _ (fun c : fido2_credential => c.id == cid) _ _ hx]
      rfl
    · have hfx : ¬((if x.id == tid then { x with sign_count := x.sign_count + 1 } else x).id ==
          cid) = true := by
        split <;> exact hx
      rw [@List.find?_cons_of_neg _ (fun c : fido2_credential => c.id == cid) _ _ hfx,
        @List.find?_cons_of_neg _ (fun c : fido2_credential => c.id == cid) _ _ hx]
      exact ih

/-- Incrementing a credential's sign counter bumps exactly its stored count
by one. -/
theorem signCountOf_increment (st : AuthState) (cid : List Nat) :
    signCountOf (incrementSignCount st cid) cid =
      (signCountOf st cid).map (fun n => n + 1) := by
  unfold signCountOf findCred incrementSignCount
  dsimp only
  rw [find?_map_bump]
  cases hf : st.creds.find? (fun c => c.id == cid) with
  | none => rfl
  | some c0 =>
    have hp := List.find?_some hf
    simp [Option.map, hp]

/-- A sign-counter increment never decreases any stored count. -/
theorem signCountOf_increment_mono (st : AuthState) (tid cid : List Nat) (a b : Nat)
    (h : signCountOf st cid = some a)
    (h' : signCountOf (incrementSignCount st tid) cid = some b) : a ≤ b := by
  unfold signCountOf findCred at h h'
  unfold incrementSignCount at h'
  dsimp only at h'
  rw [find?_map_bump] at h'
  cases hf : st.creds.find? (fun c => c.id == cid) with
  | none => rw [hf] at h; cases h
  | some c0 =>
    rw [hf] at h h'
    rw [Option.map_some'] at h
    rw [Option.map_some', Option.map_some'] at h'
    have ha := Option.some.inj h
    have hb := Option.some.inj h'
    split at hb
    · dsimp only at hb
      omega
    · omega

/-- GetAssertion either fails, changing nothing, or succeeds. -/
theorem getAssertion_cases (p : GetAssertParams) (st : AuthState) :
    ((getAssertion p st).1.status ≠ FIDO2_OK ∧ (getAssertion p st).2 = st) ∨
    (getAssertion p st).1.status = FIDO2_OK := by
  unfold getAssertion
  repeat' split
  all_goals first | exact Or.inl ⟨by simp, rfl⟩ | exact Or.inr rfl

/-- GetNextAssertion without success changes at most the pending list, never
the credentials; on "no operations" nothing changes at all. -/
theorem getNextAssertion_cases (ch : Nat) (st : AuthState) :
    ((getNextAssertion ch st).1.status ≠ FIDO2_OK ∧
      ((getNextAssertion ch st).2.creds = st.creds)) ∨
    (getNextAssertion ch st).1.status = FIDO2_OK := by
  unfold getNextAssertion
  repeat' split
  all_goals first | exact Or.inl ⟨by simp, rfl⟩ | exact Or.inr rfl

/-- Shape of a successful GetAssertion: the first candidate is returned with
its counter bumped by one and the remaining candidates become the channel's
pending list. -/
theorem getAssertion_ok (p : GetAssertParams) (st : AuthState)
    (hok : (getAssertion p st).1.status = FIDO2_OK) :
    ∃ c rest, candidates p st = c :: rest ∧
      (getAssertion p st).1.cred = some c ∧
      (getAssertion p st).1.sign_count = some (c.sign_count + 1) ∧
      (getAssertion p st).2 = { incrementSignCount st c.id with
        pending := rest.map (fun r => r.id), pending_channel := some p.channel } := by
  unfold getAssertion at hok ⊢
  cases hcs : candidates p st with
  | nil => rw [hcs] at hok; simp at hok
  | cons a as =>
    rw [hcs] at hok
    dsimp only at hok ⊢
    split at hok
    · simp at hok
    · next h1 =>
      split at hok
      · simp at hok
      · next h2 =>
        split at hok
        · simp at hok
        · next h3 =>
          rw [if_neg h1, if_neg h2, if_neg h3]
          exact ⟨a, as, rfl, rfl, rfl, rfl⟩

/-- Shape of a successful GetNextAssertion: the next pending credential is
popped and returned with its counter bumped by one. -/
theorem getNextAssertion_ok (ch : Nat) (st : AuthState)
    (hok : (getNextAssertion ch st).1.status = FIDO2_OK) :
    ∃ cid rest c, st.pending = cid :: rest ∧ findCred st cid = some c ∧
      (getNextAssertion ch st).1.cred = some c ∧
      (getNextAssertion ch st).1.sign_count = some (c.sign_count + 1) ∧
      (getNextAssertion ch st).2 = { incrementSignCount st cid with pending := rest } := by
  unfold getNextAssertion at hok ⊢
  split at hok
  · simp at hok
  · next hch =>
    rw [if_neg hch]
    cases hpd : st.pending with
    | nil => rw [hpd] at hok; simp at hok
    | cons cid rest =>
      rw [hpd] at hok
      dsimp only at hok ⊢
      cases hf : findCred st cid with
      | none => rw [hf] at hok; simp at hok
      | some c0 =>
        rw [hf] at hok
        dsimp only
        exact ⟨cid, rest, c0, rfl, hf, rfl, rfl, rfl⟩

/-- No single operation ever decreases a stored sign counter. -/
theorem signCount_step_mono (st : AuthState) (op : Op) (cid : List Nat) (a b : Nat)
    (h : signCountOf st cid = some a) (h' : signCountOf (step st op).2 cid = some b) :
    a ≤ b := by
  cases op with
  | mk_cred p =>
    have h'' : signCountOf (makeCredential p st).2 cid = some b := h'
    rcases makeCredential_cases p st with ⟨_, hst, _⟩ | ⟨_, _, _, _, hst⟩
    · rw [hst, h] at h''
      exact le_of_eq (Option.some.inj h'')
    · rw [hst] at h''
      unfold signCountOf findCred at h h''
      dsimp only at h''
      cases hf : st.creds.find? (fun c => c.id == cid) with
      | none => rw [hf] at h; cases h
      | some c0 =>
        rw [hf] at h
        rw [find?_append_some _ _ _ _ hf] at h''
        rw [h] at h''
        exact le_of_eq (Option.some.inj h'')
  | get_assert p =>
    have h'' : signCountOf (getAssertion p st).2 cid = some b := h'
    rcases getAssertion_cases p st with ⟨_, hst⟩ | hok
    · rw [hst, h] at h''
      exact le_of_eq (Option.some.inj h'')
    · obtain ⟨c, rest, hcs, hcred, hsc, hst⟩ := getAssertion_ok p st hok
      rw [hst] at h''
      exact signCountOf_increment_mono st c.id cid a b h h''
  | get_next ch =>
    have h'' : signCountOf (getNextAssertion ch st).2 cid = some b := h'
    rcases getNextAssertion_cases ch st with ⟨_, hst⟩ | hok
    · unfold signCountOf findCred at h h''
      rw [hst, h] at h''
      exact le_of_eq (Option.some.inj h'')
    · obtain ⟨pid, rest, c, hpd, hf, hcred, hsc, hst⟩ := getNextAssertion_ok ch st hok
      rw [hst] at h''
      exact signCountOf_increment_mono st pid cid a b h h''
  | client_pin o =>
    have h'' : signCountOf (clientPin o st).2 cid = some b := h'
    unfold signCountOf findCred at h h''
    rw [clientPin_creds o st, h] at h''
    exact le_of_eq (Option.some.inj h'')
  | factory_reset up =>
    cases up with
    | true => simp [signCountOf, findCred, step, fido2_reset] at h'
    | false =>
      have h'' : signCountOf st cid = some b := h'
      rw [h] at h''
      exact le_of_eq (Option.some.inj h'')
  | get_info =>
    have h'' : signCountOf st cid = some b := h'
    rw [h] at h''
    exact le_of_eq (Option.some.inj h'')

/-- Along any trace during which a credential stays stored, its sign counter
never decreases. -/
theorem signCount_runOps_mono (ops : List Op) (st : AuthState) (cid : List Nat) (a b : Nat)
    (halive : ∀ n, (signCountOf (runOps st (ops.take n)) cid).isSome)
    (h : signCountOf st cid = some a) (h' : signCountOf (runOps st ops) cid = some b) :
    a ≤ b := by
  induction ops generalizing st a with
  | nil =>
    have h'' : signCountOf st cid = some b := h'
    rw [h] at h''
    exact le_of_eq (Option.some.inj h'')
  | cons o rest ih =>
    have h1 : (signCountOf (step st o).2 cid).isSome := by
      have := halive 1
      simpa [runOps, List.take] using this
    obtain ⟨m, hm⟩ := Option.isSome_iff_exists.mp h1
    have htail : ∀ n, (signCountOf (runOps (step st o).2 (rest.take n)) cid).isSome :=
      fun n => by
        have := halive (n + 1)
        simpa [runOps, List.take] using this
    exact le_trans (signCount_step_mono st o cid a m h hm) (ih (step st o).2 m htail hm h')

/-- C1: every credential MakeCredential creates starts with `sign_count = 0`;
every successful GetAssertion and GetNextAssertion returns its credential's
counter bumped by exactly one and stores exactly that incremented value; no
operation ever decreases a stored counter, along single steps or whole
traces while the credential stays stored.  Since each successful assertion
stores and reports `previous + 1` and the counter never decreases in
between, the counter values of successive assertions against one credential
strictly increase and never repeat a prior value. -/
theorem sign_counter_monotonic :
    (∀ p st, (makeCredential p st).1.status = FIDO2_OK →
      (makeCredential p st).1.sign_count = some 0 ∧
      ∃ c, (makeCredential p st).1.cred = some c ∧ c.sign_count = 0) ∧
    (∀ p st, (getAssertion p st).1.status = FIDO2_OK →
      ∃ c, (getAssertion p st).1.cred = some c ∧
        (getAssertion p st).1.sign_count = some (c.sign_count + 1) ∧
        signCountOf (getAssertion p st).2 c.id =
          (signCountOf st c.id).map (fun n => n + 1)) ∧
    (∀ ch st, (getNextAssertion ch st).1.status = FIDO2_OK →
      ∃ c, (getNextAssertion ch st).1.cred = some c ∧
        (getNextAssertion ch st).1.sign_count = some (c.sign_count + 1) ∧
        signCountOf (getNextAssertion ch st).2 c.id =
          (signCountOf st c.id).map (fun n => n + 1)) ∧
    (∀ st op cid a b, signCountOf st cid = some a →
      signCountOf (step st op).2 cid = some b → a ≤ b) ∧
    (∀ ops st cid a b,
      (∀ n, (signCountOf (runOps st (ops.take n)) cid).isSome) →
      signCountOf st cid = some a → signCountOf (runOps st ops) cid = some b → a ≤ b) := by
  refine ⟨?_, ?_, ?_, signCount_step_mono, fun ops st cid a b => signCount_runOps_mono ops st cid a b⟩
  · intro p st hok
    rcases makeCredential_cases p st with ⟨hne, _, _⟩ | ⟨_, _, hcred, hsc, _⟩
    · exact absurd hok hne
    · exact ⟨hsc, newCred p st, hcred, rfl⟩
  · intro p st hok
    obtain ⟨c, rest, hcs, hcred, hsc, hst⟩ := getAssertion_ok p st hok
    refine ⟨c, hcred, hsc, ?_⟩
    rw [hst]
    exact signCountOf_increment st c.id
  · intro ch st hok
    obtain ⟨pid, rest, c, hpd, hf, hcred, hsc, hst⟩ := getNextAssertion_ok ch st hok
    have hcid : c.id = pid := by
      have := List.find?_some hf
      simpa using this
    refine ⟨c, hcred, hsc, ?_⟩
    rw [hst, hcid]
    exact signCountOf_increment st pid

/-- Concrete run of C1: the sample registration on a fresh authenticator
returns a credential whose counter is 0. -/
theorem sign_counter_monotonic_witness :
    (makeCredential sampleMkParams initState).1.sign_count = some 0 ∧
    ∃ c, (makeCredential sampleMkParams initState).1.cred = some c ∧ c.sign_count = 0 :=
  sign_counter_monotonic.1 sampleMkParams initState rfl

end Fido2
